import Mathlib

/-!
# Data-source readers of the TFE provider

A shallow embedding of `tfe/data_source_variables.go` and
`tfe/data_source_workspace_ids.go`, and of the run-queue helper exercised by
`tfe/workspace_run_helpers_test.go`.

The API client is modelled the way the repository's own tests mock it: a
client is the list of results its successive `List` calls return, in call
order.  A reader consumes one result per call; the options it sends with each
call are recorded in the outcome (`calls`).  A reader whose loop asks for more
results than the list holds has no outcome (`none`).
-/

namespace tfe

/-! ## Errors, pagination, outcomes -/

/-- A Go `error` value: an error of the client library, or the result of
`fmt.Errorf(pfx + "%w", cause)`. -/
inductive GoError where
  | client (msg : String)
  | wrapf (pfx : String) (cause : GoError)
  deriving DecidableEq, Repr

/-- What a reader call leaves behind: the returned error (`none` is Go's
`nil`), the resource data after the call, and the options of the client calls
it made, in order. -/
structure Outcome (δ : Type) (ρ : Type) where
  err : Option GoError
  d : δ
  calls : List ρ
  deriving DecidableEq, Repr

/-! ## `data_source_variables.go` -/

/-- The fields of `tfe.Variable` (and of `tfe.VariableSetVariable`, which has
the same ones) that the reader uses. -/
structure Variable where
  ID : String
  Key : String
  Value : String
  Category : String
  HCL : Bool
  Sensitive : Bool
  deriving DecidableEq, Repr

/-- A `tfe.VariableList` (`tfe.VariableSetVariableList`): the items of one page
and its pagination block. -/
structure VariableList where
  Items : List Variable
  CurrentPage : Int
  TotalPages : Int
  NextPage : Int
  deriving DecidableEq, Repr

/-- The part of `tfe.VariableListOptions` the reader writes. -/
structure VariableListOptions where
  PageNumber : Int
  deriving DecidableEq, Repr

/-- The `map[string]interface{}` built for one variable: its six keys. -/
structure VarRecord where
  id : String
  category : String
  hcl : Bool
  name : String
  sensitive : Bool
  value : String
  deriving DecidableEq, Repr

/-- The `schema.ResourceData` of the variables data source.  An unset string
attribute reads as the empty string, as `d.Get` returns it; `variables_` is
the attribute "variables" (a reserved word here). -/
structure VariablesData where
  workspace_id : String
  variable_set_id : String
  id : String
  variables_ : List VarRecord
  terraform : List VarRecord
  env : List VarRecord
  deriving DecidableEq, Repr

/-- The two services of the client that the variables reader calls, each given
by the results of its successive `List` calls. -/
structure VariablesClient where
  Variables : List (Except GoError VariableList)
  VariableSetVariables : List (Except GoError VariableList)

/-- Lines 117-123 (171-177): the record of one variable. -/
def variableResult (v : Variable) : VarRecord :=
  { id := v.ID
    category := v.Category
    hcl := v.HCL
    name := v.Key
    sensitive := v.Sensitive
    value := v.Value }

/-- Lines 114-129 (168-183): the inner loop over the items of one page,
returning `(terraformVars, envVars)`. -/
def splitItems (items : List Variable) : List VarRecord × List VarRecord :=
  items.foldl
    (fun acc v =>
      let result := variableResult v
      if v.Category = "terraform" then (acc.1 ++ [result], acc.2)
      else if v.Category = "env" then (acc.1, acc.2 ++ [result])
      else acc)
    ([], [])

/-- Lines 109-141: the page loop of `dataSourceVariableRead`.  It returns the
error of a failed call, or `(totalEnvVariables, totalTerraformVariables)`,
together with the options of the calls made. -/
def variableLoop :
    List (Except GoError VariableList) → VariableListOptions →
    List VarRecord → List VarRecord → List VariableListOptions →
    Option (Except GoError (List VarRecord × List VarRecord) × List VariableListOptions)
  | [], _, _, _, _ => none
  | Except.error err :: _, options, _, _, calls =>
    some (Except.error (GoError.wrapf "Error retrieving variable list: " err),
      calls ++ [options])
  | Except.ok variableList :: rest, options, totalEnvVariables, totalTerraformVariables,
      calls =>
    let vars := splitItems variableList.Items
    let totalEnvVariables := totalEnvVariables ++ vars.2
    let totalTerraformVariables := totalTerraformVariables ++ vars.1
    if variableList.CurrentPage ≥ variableList.TotalPages then
      some (Except.ok (totalEnvVariables, totalTerraformVariables), calls ++ [options])
    else
      variableLoop rest { options with PageNumber := variableList.NextPage }
        totalEnvVariables totalTerraformVariables (calls ++ [options])

/-- Lines 163-195: the page loop of `dataSourceVariableSetVariableRead`. -/
def variableSetLoop :
    List (Except GoError VariableList) → VariableListOptions →
    List VarRecord → List VarRecord → List VariableListOptions →
    Option (Except GoError (List VarRecord × List VarRecord) × List VariableListOptions)
  | [], _, _, _, _ => none
  | Except.error err :: _, options, _, _, calls =>
    some (Except.error (GoError.wrapf "Error retrieving variable list: " err),
      calls ++ [options])
  | Except.ok variableList :: rest, options, totalEnvVariables, totalTerraformVariables,
      calls =>
    let vars := splitItems variableList.Items
    let totalEnvVariables := totalEnvVariables ++ vars.2
    let totalTerraformVariables := totalTerraformVariables ++ vars.1
    if variableList.CurrentPage ≥ variableList.TotalPages then
      some (Except.ok (totalEnvVariables, totalTerraformVariables), calls ++ [options])
    else
      variableSetLoop rest { options with PageNumber := variableList.NextPage }
        totalEnvVariables totalTerraformVariables (calls ++ [options])

/-- Lines 150-202: `dataSourceVariableSetVariableRead`. -/
def dataSourceVariableSetVariableRead (d : VariablesData) (tfeClient : VariablesClient) :
    Option (Outcome VariablesData VariableListOptions) :=
  let variableSetId := d.variable_set_id
  match variableSetLoop tfeClient.VariableSetVariables { PageNumber := 0 } [] [] [] with
  | none => none
  | some (Except.error err, calls) => some { err := some err, d := d, calls := calls }
  | some (Except.ok (totalEnvVariables, totalTerraformVariables), calls) =>
    some
      { err := none
        d :=
          { d with
            id := "variables/" ++ variableSetId
            variables_ := totalTerraformVariables ++ totalEnvVariables
            terraform := totalTerraformVariables
            env := totalEnvVariables }
        calls := calls }

/-- Lines 90-148: `dataSourceVariableRead`.  `d.GetOk("variable_set_id")`
reports a set, non-empty value. -/
def dataSourceVariableRead (d : VariablesData) (tfeClient : VariablesClient) :
    Option (Outcome VariablesData VariableListOptions) :=
  if d.variable_set_id ≠ "" then dataSourceVariableSetVariableRead d tfeClient
  else
    let workspaceID := d.workspace_id
    match variableLoop tfeClient.Variables { PageNumber := 0 } [] [] [] with
    | none => none
    | some (Except.error err, calls) => some { err := some err, d := d, calls := calls }
    | some (Except.ok (totalEnvVariables, totalTerraformVariables), calls) =>
      some
        { err := none
          d :=
            { d with
              id := "variables/" ++ workspaceID
              variables_ := totalTerraformVariables ++ totalEnvVariables
              terraform := totalTerraformVariables
              env := totalEnvVariables }
          calls := calls }

/-! ## `data_source_workspace_ids.go` -/

/-- A Go `map[string]bool` in which every stored value is `true` (the maps
`names` and `excludeTagLookupMap`): the list of its keys, each once.  Reading
`m[k]`, and the presence test `_, ok := m[k]`, are both `k ∈ m`. -/
abbrev BoolMap := List String

/-- The assignment `m[k] = true`. -/
def BoolMap.set (m : BoolMap) (k : String) : BoolMap :=
  if k ∈ m then m else m ++ [k]

/-- A Go `map[string]string` (the maps `ids` and `fullNames`): its entries,
one per key. -/
abbrev StrMap := List (String × String)

/-- The assignment `m[k] = v`: an entry for `k` is replaced. -/
def StrMap.set (m : StrMap) (k v : String) : StrMap :=
  m.filter (fun e => e.1 ≠ k) ++ [(k, v)]

/-- The read `m[k]`, `none` when `k` is no key. -/
def StrMap.get? : StrMap → String → Option String
  | [], _ => none
  | e :: m, k => if e.1 = k then some e.2 else StrMap.get? m k

/-- The keys of the map. -/
def StrMap.keys (m : StrMap) : List String :=
  m.map Prod.fst

/-- Go's `unicode.IsSpace`: the Latin-1 spaces and the code points of the
`White_Space` property. -/
def isSpace (r : Char) : Bool :=
  let c := r.toNat
  (0x09 ≤ c && c ≤ 0x0d) || c == 0x20 || c == 0x85 || c == 0xA0 || c == 0x1680 ||
    (0x2000 ≤ c && c ≤ 0x200a) || c == 0x2028 || c == 0x2029 || c == 0x202f ||
    c == 0x205f || c == 0x3000

/-- Go's `strings.TrimSpace`: the string without its leading and trailing
white space. -/
def TrimSpace (s : String) : String :=
  String.mk ((s.toList.dropWhile isSpace).reverse.dropWhile isSpace).reverse

/-- Go's `len` of a string: its number of bytes. -/
def len (s : String) : Nat :=
  s.utf8ByteSize

/-- The fields of `tfe.Workspace` the reader uses. -/
structure Workspace where
  ID : String
  Name : String
  TagNames : List String
  deriving DecidableEq, Repr

/-- A `tfe.WorkspaceList`: the items of one page and its pagination block. -/
structure WorkspaceList where
  Items : List Workspace
  CurrentPage : Int
  TotalPages : Int
  NextPage : Int
  deriving DecidableEq, Repr

/-- The part of `tfe.WorkspaceListOptions` the reader writes. -/
structure WorkspaceListOptions where
  PageNumber : Int
  Tags : String
  ExcludeTags : String
  deriving DecidableEq, Repr

/-- The `schema.ResourceData` of the workspace-IDs data source.  The entries
of the three configured lists are Go `interface{}` values: `none` is `nil`,
`some s` the string `s`. -/
structure WorkspaceIDsData where
  names : List (Option String)
  tag_names : List (Option String)
  exclude_tags : List (Option String)
  organization : String
  ids : StrMap
  full_names : StrMap
  id : String
  deriving DecidableEq, Repr

/-- Lines 71-79: one round of the loop over `d.Get("names")`, on `(id, names)`. -/
def namesStep (acc : String × BoolMap) (name : Option String) : String × BoolMap :=
  match name with
  | none => acc
  | some s => (acc.1 ++ s, acc.2.set s)

/-- Lines 90-99: one round of the loop over `exclude_tags`, on
`(excludeTagLookupMap, excludeTagBuf)`. -/
def excludeStep (acc : BoolMap × String) (excludedTag : Option String) : BoolMap × String :=
  match excludedTag with
  | none => acc
  | some exTag =>
    if len (TrimSpace exTag) ≠ 0 then
      (acc.1.set exTag, (if len acc.2 > 0 then acc.2.push ',' else acc.2) ++ exTag)
    else acc

/-- Lines 107-112: one round of the loop over `tag_names`, on
`(id, tagSearchParts)`. -/
def tagStep (acc : String × List String) (tagName : Option String) : String × List String :=
  match tagName with
  | none => acc
  | some name =>
    if len (TrimSpace name) ≠ 0 then (acc.1 ++ name, acc.2 ++ [name]) else acc

/-- Lines 129-135: whether a tag of `w` is a key of `excludeTagLookupMap`. -/
def hasExcludedTag (excludeTagLookupMap : BoolMap) (w : Workspace) : Bool :=
  w.TagNames.any (fun tag => decide (tag ∈ excludeTagLookupMap))

/-- Lines 126-140: one round of the loop over the items of a page, on
`(fullNames, ids)`. -/
def workspaceStep (organization : String) (isWildcard hasOnlyTags : Bool)
    (names excludeTagLookupMap : BoolMap) (acc : StrMap × StrMap) (w : Workspace) :
    StrMap × StrMap :=
  let nameIncluded := isWildcard || decide (w.Name ∈ names)
  if (hasOnlyTags || nameIncluded) && !hasExcludedTag excludeTagLookupMap w then
    (acc.1.set w.Name (organization ++ "/" ++ w.Name), acc.2.set w.Name w.ID)
  else acc

/-- Lines 120-149: the page loop of `dataSourceTFEWorkspaceIDsRead`.  It
returns the error of a failed call, or `(fullNames, ids)`, together with the
options of the calls made. -/
def workspaceLoop (organization : String) (isWildcard hasOnlyTags : Bool)
    (names excludeTagLookupMap : BoolMap) :
    List (Except GoError WorkspaceList) → WorkspaceListOptions → StrMap × StrMap →
    List WorkspaceListOptions →
    Option (Except GoError (StrMap × StrMap) × List WorkspaceListOptions)
  | [], _, _, _ => none
  | Except.error err :: _, options, _, calls =>
    some (Except.error (GoError.wrapf "Error retrieving workspaces: " err), calls ++ [options])
  | Except.ok wl :: rest, options, maps, calls =>
    let maps := wl.Items.foldl
      (workspaceStep organization isWildcard hasOnlyTags names excludeTagLookupMap) maps
    if wl.CurrentPage ≥ wl.TotalPages then
      some (Except.ok maps, calls ++ [options])
    else
      workspaceLoop organization isWildcard hasOnlyTags names excludeTagLookupMap rest
        { options with PageNumber := wl.NextPage } maps (calls ++ [options])

/-- The local variables of `dataSourceTFEWorkspaceIDsRead` when its page loop
starts (line 120). -/
structure WorkspaceIDsLocals where
  organization : String
  id : String
  names : BoolMap
  isWildcard : Bool
  options : WorkspaceListOptions
  excludeTagLookupMap : BoolMap
  tagSearchParts : List String
  hasOnlyTags : Bool
  deriving DecidableEq, Repr

/-- Lines 65-118 of `dataSourceTFEWorkspaceIDsRead`: the statements before the
page loop. -/
def workspaceIDsLocals (d : WorkspaceIDsData) : WorkspaceIDsLocals :=
  let organization := d.organization
  let idNames := d.names.foldl namesStep ("", [])
  let names := idNames.2
  let isWildcard := decide ("*" ∈ names)
  let options : WorkspaceListOptions := { PageNumber := 0, Tags := "", ExcludeTags := "" }
  let excl := d.exclude_tags.foldl excludeStep ([], "")
  let excludeTagLookupMap := excl.1
  let options := if len excl.2 > 0 then { options with ExcludeTags := excl.2 } else options
  let idTags := d.tag_names.foldl tagStep (idNames.1, [])
  let id := idTags.1
  let tagSearchParts := idTags.2
  let options :=
    if tagSearchParts.length > 0 then
      { options with Tags := String.intercalate "," tagSearchParts }
    else options
  let hasOnlyTags := decide (tagSearchParts.length > 0) && decide (names.length = 0)
  { organization := organization
    id := id
    names := names
    isWildcard := isWildcard
    options := options
    excludeTagLookupMap := excludeTagLookupMap
    tagSearchParts := tagSearchParts
    hasOnlyTags := hasOnlyTags }

/-- The `d.Set` of the plugin SDK on a map attribute, as the attribute reads
afterwards.  The SDK stores a map flat, one entry under "attribute.key", keeps
the number of entries under "attribute.%" and reserves "attribute.#"; its map
reader leaves the keys "%" and "#" out.  An entry of the Go map under one of
these two keys is not in the attribute; every other entry is. -/
def setMapAttribute (m : StrMap) : StrMap :=
  m.filter (fun e => decide (e.1 ≠ "%" ∧ e.1 ≠ "#"))

/-- Lines 62-156: `dataSourceTFEWorkspaceIDsRead`.  `HashString` is the
`schema.HashString` of the plugin SDK; `Workspaces` holds the results of the
successive `tfeClient.Workspaces.List` calls.  Lines 151-152 write the two Go
maps with `d.Set`. -/
def dataSourceTFEWorkspaceIDsRead (HashString : String → Int)
    (d : WorkspaceIDsData) (Workspaces : List (Except GoError WorkspaceList)) :
    Option (Outcome WorkspaceIDsData WorkspaceListOptions) :=
  let l := workspaceIDsLocals d
  match workspaceLoop l.organization l.isWildcard l.hasOnlyTags l.names l.excludeTagLookupMap
      Workspaces l.options ([], []) [] with
  | none => none
  | some (Except.error err, calls) => some { err := some err, d := d, calls := calls }
  | some (Except.ok (fullNames, ids), calls) =>
    some
      { err := none
        d :=
          { d with
            ids := setMapAttribute ids
            full_names := setMapAttribute fullNames
            id := l.organization ++ "/" ++ toString (HashString l.id) }
        calls := calls }

/-! ## The run-queue helper of `workspace_run_helpers_test.go` -/

/-- The fields of `tfe.Run` that the test sets. -/
structure Run where
  ID : String
  Status : String
  PositionInQueue : Int
  deriving DecidableEq, Repr

/-- A `tfe.RunQueue`: the items of one page and its pagination block. -/
structure RunQueue where
  Items : List Run
  CurrentPage : Int
  TotalPages : Int
  NextPage : Int
  deriving DecidableEq, Repr

/-- The part of `tfe.ReadRunQueueOptions` a paged read writes. -/
structure ReadRunQueueOptions where
  PageNumber : Int
  deriving DecidableEq, Repr

/-- Modelled from the spec: the page loop of `readRunPositionInOrgQueue`,
whose source file is not among the sources (only its test is).  Following
"fetch the pending run queue (paged) and linearly locate the run's index": the
pages are fetched like those of the two readers above, the items of each page
are scanned in order, and the first item whose ID is the run ID gives the
position, its `PositionInQueue`; without such an item the position is 0. -/
def runQueueLoop (runID : String) :
    List (Except GoError RunQueue) → ReadRunQueueOptions → List ReadRunQueueOptions →
    Option ((Int × Option GoError) × List ReadRunQueueOptions)
  | [], _, _ => none
  | Except.error err :: _, options, calls =>
    some ((0, some (GoError.wrapf "unable to read run queue: " err)), calls ++ [options])
  | Except.ok runQueue :: rest, options, calls =>
    match runQueue.Items.find? (fun item => decide (runID = item.ID)) with
    | some item => some ((item.PositionInQueue, none), calls ++ [options])
    | none =>
      if runQueue.CurrentPage ≥ runQueue.TotalPages then
        some ((0, none), calls ++ [options])
      else
        runQueueLoop runID rest { options with PageNumber := runQueue.NextPage }
          (calls ++ [options])

/-- Modelled from the spec: `readRunPositionInOrgQueue`, which is called by the
test and defined in a file that is not among the sources.  `ReadRunQueue` holds
the results of the successive `Organizations.ReadRunQueue` calls for the
organization; the result is `(position, err)`. -/
def readRunPositionInOrgQueue (ReadRunQueue : List (Except GoError RunQueue))
    (runID : String) : Option (Int × Option GoError) :=
  (runQueueLoop runID ReadRunQueue { PageNumber := 0 } []).map Prod.fst

/-- Lines 139-152 of the test file: `runQueueWithExpectedIDNotIncluded`. -/
def runQueueWithExpectedIDNotIncluded : RunQueue :=
  { Items := [{ ID := "run-01", Status := "pending", PositionInQueue := 0 }]
    CurrentPage := 1
    TotalPages := 1
    NextPage := 0 }

/-- Lines 154-172 of the test file: `runQueueWithExpectedIDIncluded`. -/
def runQueueWithExpectedIDIncluded : RunQueue :=
  { Items :=
      [{ ID := "run-01", Status := "pending", PositionInQueue := 0 },
       { ID := "run-02", Status := "pending", PositionInQueue := 1 }]
    CurrentPage := 1
    TotalPages := 1
    NextPage := 0 }

/-- Lines 174-190 of the test file: what the mocked `ReadRunQueue` returns for
an organization name, at every call (`AnyTimes`), as the results of its first
`n` calls. -/
def MockRunsQueueForOrg (orgName orgNameWithRun : String) (organization : String) (n : Nat) :
    List (Except GoError RunQueue) :=
  if organization = orgNameWithRun then List.replicate n (Except.ok runQueueWithExpectedIDIncluded)
  else if organization = orgName then
    List.replicate n (Except.ok runQueueWithExpectedIDNotIncluded)
  else List.replicate n (Except.error (GoError.client "invalid value for organization"))

/-! ## Example data -/

/-- A first page of two variables, with a second page to come. -/
def varPage1 : VariableList :=
  { Items :=
      [{ ID := "var-1", Key := "region", Value := "eu", Category := "terraform",
         HCL := false, Sensitive := false },
       { ID := "var-2", Key := "TOKEN", Value := "", Category := "env",
         HCL := false, Sensitive := true }]
    CurrentPage := 1
    TotalPages := 2
    NextPage := 2 }

/-- A second and last page, with a variable of category "policy-set". -/
def varPage2 : VariableList :=
  { Items :=
      [{ ID := "var-3", Key := "limit", Value := "3", Category := "policy-set",
         HCL := false, Sensitive := false },
       { ID := "var-4", Key := "zones", Value := "[]", Category := "terraform",
         HCL := true, Sensitive := false }]
    CurrentPage := 2
    TotalPages := 2
    NextPage := 0 }

/-- A resource data that names a workspace and no variable set. -/
def varData : VariablesData :=
  { workspace_id := "ws-1", variable_set_id := "", id := "", variables_ := [],
    terraform := [], env := [] }

/-- A client whose two calls both succeed. -/
def varClient : VariablesClient :=
  { Variables := [Except.ok varPage1, Except.ok varPage2], VariableSetVariables := [] }

/-- A client whose second call fails. -/
def varClientFailing : VariablesClient :=
  { Variables := [Except.ok varPage1, Except.error (GoError.client "unauthorized")],
    VariableSetVariables := [] }

/-- A first page of workspaces, with a second page to come. -/
def wsPage1 : WorkspaceList :=
  { Items :=
      [{ ID := "ws-1", Name := "app", TagNames := ["prod"] },
       { ID := "ws-2", Name := "db", TagNames := ["prod", "legacy"] }]
    CurrentPage := 1
    TotalPages := 2
    NextPage := 2 }

/-- A second and last page of workspaces. -/
def wsPage2 : WorkspaceList :=
  { Items := [{ ID := "ws-3", Name := "web", TagNames := [] }]
    CurrentPage := 2
    TotalPages := 2
    NextPage := 0 }

/-- A single page of four workspaces, one of them named "%". -/
def wsPageReserved : WorkspaceList :=
  { Items :=
      [{ ID := "ws-1", Name := "a.b", TagNames := [] },
       { ID := "ws-2", Name := "%", TagNames := [] },
       { ID := "ws-3", Name := "", TagNames := [] },
       { ID := "ws-4", Name := "a", TagNames := [] }]
    CurrentPage := 1
    TotalPages := 1
    NextPage := 0 }

/-- A configuration that names two workspaces and excludes a tag. -/
def wsData : WorkspaceIDsData :=
  { names := [some "app", some "db", some "gone"], tag_names := [],
    exclude_tags := [some "legacy"], organization := "acme", ids := [], full_names := [],
    id := "" }

/-- A configuration with the wildcard name and no excluded tag. -/
def wsDataWildcard : WorkspaceIDsData :=
  { names := [some "*"], tag_names := [], exclude_tags := [], organization := "acme",
    ids := [], full_names := [], id := "" }

/-- A configuration whose only name is a nil entry, with a tag to search. -/
def wsDataNilName : WorkspaceIDsData :=
  { names := [none], tag_names := [some "prod"], exclude_tags := [], organization := "acme",
    ids := [], full_names := [], id := "" }

/-! ## Properties of the variables reader -/

theorem splitItems_foldl (items : List Variable) (acc : List VarRecord × List VarRecord) :
    items.foldl
      (fun acc v =>
        let result := variableResult v
        if v.Category = "terraform" then (acc.1 ++ [result], acc.2)
        else if v.Category = "env" then (acc.1, acc.2 ++ [result])
        else acc) acc =
    (acc.1 ++ (items.filter (fun v => decide (v.Category = "terraform"))).map variableResult,
     acc.2 ++ (items.filter (fun v => decide (v.Category = "env"))).map variableResult) := by
  induction items generalizing acc with
  | nil => simp
  | cons v items ih =>
    rw [List.foldl_cons, ih]
    by_cases ht : v.Category = "terraform"
    · have he : v.Category ≠ "env" := by rw [ht]; decide
      simp [ht, List.filter_cons]
    · by_cases he : v.Category = "env"
      · simp [ht, he, List.filter_cons]
      · simp [ht, he, List.filter_cons]

theorem splitItems_eq (items : List Variable) :
    splitItems items =
      ((items.filter (fun v => decide (v.Category = "terraform"))).map variableResult,
       (items.filter (fun v => decide (v.Category = "env"))).map variableResult) := by
  unfold splitItems
  rw [splitItems_foldl]
  simp

theorem variableSetLoop_eq (rs : List (Except GoError VariableList))
    (options : VariableListOptions) (accE accT : List VarRecord)
    (calls : List VariableListOptions) :
    variableSetLoop rs options accE accT calls = variableLoop rs options accE accT calls := by
  induction rs generalizing options accE accT calls with
  | nil => rfl
  | cons r rs ih =>
    cases r with
    | error err => rfl
    | ok variableList =>
      simp only [variableSetLoop, variableLoop]
      split
      · rfl
      · exact ih _ _ _ _

theorem variableLoop_more (p : VariableList) (rs : List (Except GoError VariableList))
    (hp : p.CurrentPage < p.TotalPages)
    (options : VariableListOptions) (accE accT : List VarRecord)
    (calls : List VariableListOptions) :
    variableLoop (Except.ok p :: rs) options accE accT calls =
      variableLoop rs { options with PageNumber := p.NextPage }
        (accE ++ (splitItems p.Items).2) (accT ++ (splitItems p.Items).1)
        (calls ++ [options]) := by
  have hp' : ¬ p.CurrentPage ≥ p.TotalPages := by omega
  rw [variableLoop]
  simp only [hp', if_false]

/-- On a list of results that starts with the pages `pre`, none of them the
last one, followed by a last page, the loop ends and returns the records of
the two categories over all these pages. -/
theorem variableLoop_complete (pre : List VariableList) (last : VariableList)
    (rest : List (Except GoError VariableList))
    (hpre : ∀ p ∈ pre, p.CurrentPage < p.TotalPages)
    (hlast : last.CurrentPage ≥ last.TotalPages)
    (options : VariableListOptions) (accE accT : List VarRecord)
    (calls : List VariableListOptions) :
    ∃ calls',
      variableLoop (pre.map Except.ok ++ Except.ok last :: rest) options accE accT calls =
        some (Except.ok
          (accE ++ (((pre ++ [last]).flatMap VariableList.Items).filter
              (fun v => decide (v.Category = "env"))).map variableResult,
           accT ++ (((pre ++ [last]).flatMap VariableList.Items).filter
              (fun v => decide (v.Category = "terraform"))).map variableResult),
          calls') := by
  induction pre generalizing options accE accT calls with
  | nil =>
    refine ⟨calls ++ [options], ?_⟩
    simp [variableLoop, hlast, splitItems_eq]
  | cons p pre ih =>
    have hp : p.CurrentPage < p.TotalPages := hpre p (List.mem_cons_self _ _)
    obtain ⟨calls', h⟩ := ih (fun q hq => hpre q (List.mem_cons_of_mem _ hq))
      { options with PageNumber := p.NextPage }
      (accE ++ (splitItems p.Items).2) (accT ++ (splitItems p.Items).1) (calls ++ [options])
    refine ⟨calls', ?_⟩
    rw [List.map_cons, List.cons_append, variableLoop_more p _ hp, h]
    simp [splitItems_eq, List.flatMap_cons, List.filter_append, List.map_append]

/-- On a list of results that starts with the pages `pre`, none of them the
last one, followed by a failed call, the loop returns the wrapped error. -/
theorem variableLoop_error (pre : List VariableList) (err : GoError)
    (rest : List (Except GoError VariableList))
    (hpre : ∀ p ∈ pre, p.CurrentPage < p.TotalPages)
    (options : VariableListOptions) (accE accT : List VarRecord)
    (calls : List VariableListOptions) :
    ∃ calls',
      variableLoop (pre.map Except.ok ++ Except.error err :: rest) options accE accT calls =
        some (Except.error (GoError.wrapf "Error retrieving variable list: " err), calls') := by
  induction pre generalizing options accE accT calls with
  | nil => exact ⟨calls ++ [options], by simp [variableLoop]⟩
  | cons p pre ih =>
    have hp : p.CurrentPage < p.TotalPages := hpre p (List.mem_cons_self _ _)
    obtain ⟨calls', h⟩ := ih (fun q hq => hpre q (List.mem_cons_of_mem _ hq))
      { options with PageNumber := p.NextPage }
      (accE ++ (splitItems p.Items).2) (accT ++ (splitItems p.Items).1) (calls ++ [options])
    exact ⟨calls', by rw [List.map_cons, List.cons_append, variableLoop_more p _ hp, h]⟩

/-- A loop that returns lists, and no error, ran on results that start with
pages that are not the last one, followed by a last page. -/
theorem variableLoop_ok_inv (rs : List (Except GoError VariableList))
    (options : VariableListOptions) (accE accT : List VarRecord)
    (calls : List VariableListOptions) (res : List VarRecord × List VarRecord)
    (calls' : List VariableListOptions)
    (h : variableLoop rs options accE accT calls = some (Except.ok res, calls')) :
    ∃ (pre : List VariableList) (last : VariableList)
      (rest : List (Except GoError VariableList)),
      rs = pre.map Except.ok ++ Except.ok last :: rest ∧
      (∀ p ∈ pre, p.CurrentPage < p.TotalPages) ∧ last.CurrentPage ≥ last.TotalPages := by
  induction rs generalizing options accE accT calls with
  | nil => simp [variableLoop] at h
  | cons r rs ih =>
    cases r with
    | error err => simp [variableLoop] at h
    | ok p =>
      by_cases hp : p.CurrentPage ≥ p.TotalPages
      · exact ⟨[], p, rs, by simp, by simp, hp⟩
      · rw [variableLoop_more p rs (by omega)] at h
        obtain ⟨pre, last, rest, hrs, hpre, hlast⟩ := ih _ _ _ _ h
        refine ⟨p :: pre, last, rest, by simp [hrs], ?_, hlast⟩
        intro q hq
        rcases List.mem_cons.mp hq with rfl | hq
        · omega
        · exact hpre q hq

/-- The read as a function of the results of the service it calls. -/
theorem dataSourceVariableRead_eq (d : VariablesData) (tfeClient : VariablesClient)
    (rs : List (Except GoError VariableList))
    (hws : d.variable_set_id = "" → tfeClient.Variables = rs)
    (hvs : d.variable_set_id ≠ "" → tfeClient.VariableSetVariables = rs) :
    dataSourceVariableRead d tfeClient =
      match variableLoop rs { PageNumber := 0 } [] [] [] with
      | none => none
      | some (Except.error err, calls) => some { err := some err, d := d, calls := calls }
      | some (Except.ok (totalEnvVariables, totalTerraformVariables), calls) =>
        some
          { err := none
            d :=
              { d with
                id := "variables/" ++
                  (if d.variable_set_id ≠ "" then d.variable_set_id else d.workspace_id)
                variables_ := totalTerraformVariables ++ totalEnvVariables
                terraform := totalTerraformVariables
                env := totalEnvVariables }
            calls := calls } := by
  by_cases hid : d.variable_set_id = ""
  · rw [dataSourceVariableRead, if_neg (not_not.mpr hid), hws hid]
    simp [hid]
  · rw [dataSourceVariableRead, if_pos hid, dataSourceVariableSetVariableRead, hvs hid,
      variableSetLoop_eq]
    simp [hid]

theorem filter_length_two_categories (items : List Variable) :
    (items.filter (fun v => decide (v.Category = "terraform"))).length +
      (items.filter (fun v => decide (v.Category = "env"))).length =
    (items.filter
      (fun v => decide (v.Category = "terraform" ∨ v.Category = "env"))).length := by
  induction items with
  | nil => rfl
  | cons v items ih =>
    by_cases ht : v.Category = "terraform"
    · have he : v.Category ≠ "env" := by rw [ht]; decide
      simp [List.filter_cons, ht] at ih ⊢
      omega
    · by_cases he : v.Category = "env"
      · simp [List.filter_cons, ht, he] at ih ⊢
        omega
      · simp [List.filter_cons, ht, he] at ih ⊢
        omega

/-- C1: when the listing returns pages until a first one with
CurrentPage >= TotalPages, all calls succeeding, `dataSourceVariableRead`
returns no error and sets "terraform" to the records of the fetched variables
of category "terraform", "env" to those of category "env", each in fetch order
and each record carrying the id, category, hcl, key (as name), sensitive and
value of its variable, and "variables" to the first list followed by the
second. -/
theorem dataSourceVariableRead_partitions (d : VariablesData) (tfeClient : VariablesClient)
    (pre : List VariableList) (last : VariableList)
    (rest : List (Except GoError VariableList))
    (hpre : ∀ p ∈ pre, p.CurrentPage < p.TotalPages)
    (hlast : last.CurrentPage ≥ last.TotalPages)
    (hws : d.variable_set_id = "" →
      tfeClient.Variables = pre.map Except.ok ++ Except.ok last :: rest)
    (hvs : d.variable_set_id ≠ "" →
      tfeClient.VariableSetVariables = pre.map Except.ok ++ Except.ok last :: rest) :
    ∃ o, dataSourceVariableRead d tfeClient = some o ∧ o.err = none ∧
      o.d.terraform =
        (((pre ++ [last]).flatMap VariableList.Items).filter
          (fun v => decide (v.Category = "terraform"))).map
          (fun v =>
            { id := v.ID, category := v.Category, hcl := v.HCL, name := v.Key,
              sensitive := v.Sensitive, value := v.Value }) ∧
      o.d.env =
        (((pre ++ [last]).flatMap VariableList.Items).filter
          (fun v => decide (v.Category = "env"))).map
          (fun v =>
            { id := v.ID, category := v.Category, hcl := v.HCL, name := v.Key,
              sensitive := v.Sensitive, value := v.Value }) ∧
      o.d.variables_ = o.d.terraform ++ o.d.env := by
  obtain ⟨calls, h⟩ := variableLoop_complete pre last rest hpre hlast { PageNumber := 0 } [] [] []
  rw [dataSourceVariableRead_eq d tfeClient _ hws hvs, h]
  exact ⟨_, rfl, rfl, rfl, rfl, rfl⟩

/-- Witness of C1: a workspace whose variables come on two pages. -/
theorem dataSourceVariableRead_partitions_witness :
    ∃ o, dataSourceVariableRead varData varClient = some o ∧ o.err = none ∧
      o.d.terraform =
        ((([varPage1] ++ [varPage2]).flatMap VariableList.Items).filter
          (fun v => decide (v.Category = "terraform"))).map
          (fun v =>
            { id := v.ID, category := v.Category, hcl := v.HCL, name := v.Key,
              sensitive := v.Sensitive, value := v.Value }) ∧
      o.d.env =
        ((([varPage1] ++ [varPage2]).flatMap VariableList.Items).filter
          (fun v => decide (v.Category = "env"))).map
          (fun v =>
            { id := v.ID, category := v.Category, hcl := v.HCL, name := v.Key,
              sensitive := v.Sensitive, value := v.Value }) ∧
      o.d.variables_ = o.d.terraform ++ o.d.env :=
  dataSourceVariableRead_partitions varData varClient [varPage1] varPage2 []
    (by decide) (by decide) (fun _ => rfl) (fun h => absurd rfl h)

/-- C5, as stated, fails: the fetched variable "var-3", of category
"policy-set", has no record in "variables", which holds three records for the
four fetched variables. -/
theorem dataSourceVariableRead_drops_other_categories :
    ∃ o, dataSourceVariableRead varData varClient = some o ∧ o.err = none ∧
      (∃ v ∈ [varPage1, varPage2].flatMap VariableList.Items,
        v.ID = "var-3" ∧ ¬ ∃ r ∈ o.d.variables_, r.id = v.ID) ∧
      o.d.variables_.length = 3 ∧
      ([varPage1, varPage2].flatMap VariableList.Items).length = 4 := by
  refine ⟨_, rfl, rfl, ?_, ?_, ?_⟩ <;> decide

/-- C5, amended: when the listing returns pages until a first one with
CurrentPage >= TotalPages, all calls succeeding, every fetched variable of
category "terraform" or "env" has a record with its id in "variables", and the
length of "variables" is the number of fetched variables of these two
categories. -/
theorem dataSourceVariableRead_retrieves (d : VariablesData) (tfeClient : VariablesClient)
    (pre : List VariableList) (last : VariableList)
    (rest : List (Except GoError VariableList))
    (hpre : ∀ p ∈ pre, p.CurrentPage < p.TotalPages)
    (hlast : last.CurrentPage ≥ last.TotalPages)
    (hws : d.variable_set_id = "" →
      tfeClient.Variables = pre.map Except.ok ++ Except.ok last :: rest)
    (hvs : d.variable_set_id ≠ "" →
      tfeClient.VariableSetVariables = pre.map Except.ok ++ Except.ok last :: rest) :
    ∃ o, dataSourceVariableRead d tfeClient = some o ∧ o.err = none ∧
      (∀ v ∈ (pre ++ [last]).flatMap VariableList.Items,
        v.Category = "terraform" ∨ v.Category = "env" →
          ∃ r ∈ o.d.variables_, r.id = v.ID) ∧
      o.d.variables_.length =
        (((pre ++ [last]).flatMap VariableList.Items).filter
          (fun v => decide (v.Category = "terraform" ∨ v.Category = "env"))).length := by
  obtain ⟨calls, h⟩ := variableLoop_complete pre last rest hpre hlast { PageNumber := 0 } [] [] []
  rw [dataSourceVariableRead_eq d tfeClient _ hws hvs, h]
  refine ⟨_, rfl, rfl, ?_, ?_⟩
  · intro v hv hcat
    refine ⟨variableResult v, ?_, rfl⟩
    simp only [List.nil_append, List.mem_append, List.mem_map, List.mem_filter,
      decide_eq_true_eq]
    rcases hcat with hc | hc
    · exact Or.inl ⟨v, ⟨hv, hc⟩, rfl⟩
    · exact Or.inr ⟨v, ⟨hv, hc⟩, rfl⟩
  · simp only [List.nil_append, List.length_append, List.length_map]
    exact filter_length_two_categories _

/-- Witness of C5 (amended): the two-page workspace of the example data. -/
theorem dataSourceVariableRead_retrieves_witness :
    ∃ o, dataSourceVariableRead varData varClient = some o ∧ o.err = none ∧
      (∀ v ∈ ([varPage1] ++ [varPage2]).flatMap VariableList.Items,
        v.Category = "terraform" ∨ v.Category = "env" →
          ∃ r ∈ o.d.variables_, r.id = v.ID) ∧
      o.d.variables_.length =
        ((([varPage1] ++ [varPage2]).flatMap VariableList.Items).filter
          (fun v => decide (v.Category = "terraform" ∨ v.Category = "env"))).length :=
  dataSourceVariableRead_retrieves varData varClient [varPage1] varPage2 []
    (by decide) (by decide) (fun _ => rfl) (fun h => absurd rfl h)

/-- C8: on results in which a call fails before a page with
CurrentPage >= TotalPages was returned, `dataSourceVariableRead` returns the
error of the client wrapped and leaves the resource data as it was; and it
returns no error exactly when the results start with pages that are not the
last one followed by a page with CurrentPage >= TotalPages. -/
theorem dataSourceVariableRead_surfaces_errors (d : VariablesData)
    (tfeClient : VariablesClient) (rs : List (Except GoError VariableList))
    (hws : d.variable_set_id = "" → tfeClient.Variables = rs)
    (hvs : d.variable_set_id ≠ "" → tfeClient.VariableSetVariables = rs) :
    (∀ (pre : List VariableList) (err : GoError) (rest : List (Except GoError VariableList)),
      rs = pre.map Except.ok ++ Except.error err :: rest →
      (∀ p ∈ pre, p.CurrentPage < p.TotalPages) →
      ∃ calls, dataSourceVariableRead d tfeClient =
        some { err := some (GoError.wrapf "Error retrieving variable list: " err)
               d := d
               calls := calls }) ∧
    ((∃ o, dataSourceVariableRead d tfeClient = some o ∧ o.err = none) ↔
      ∃ (pre : List VariableList) (last : VariableList)
        (rest : List (Except GoError VariableList)),
        rs = pre.map Except.ok ++ Except.ok last :: rest ∧
        (∀ p ∈ pre, p.CurrentPage < p.TotalPages) ∧
        last.CurrentPage ≥ last.TotalPages) := by
  rw [dataSourceVariableRead_eq d tfeClient rs hws hvs]
  refine ⟨?_, ?_, ?_⟩
  · intro pre err rest hrs hpre
    obtain ⟨calls, h⟩ := variableLoop_error pre err rest hpre { PageNumber := 0 } [] [] []
    exact ⟨calls, by rw [hrs, h]⟩
  · rintro ⟨o, ho, herr⟩
    cases hl : variableLoop rs { PageNumber := 0 } [] [] [] with
    | none => rw [hl] at ho; simp at ho
    | some res =>
      obtain ⟨r, calls⟩ := res
      cases r with
      | error e =>
        rw [hl] at ho
        simp only [Option.some.injEq] at ho
        rw [← ho] at herr
        simp at herr
      | ok lists => exact variableLoop_ok_inv rs _ _ _ _ lists calls hl
  · rintro ⟨pre, last, rest, hrs, hpre, hlast⟩
    obtain ⟨calls, h⟩ := variableLoop_complete pre last rest hpre hlast { PageNumber := 0 } [] [] []
    rw [hrs, h]
    exact ⟨_, rfl, rfl⟩

/-- Witness of C8: the second call fails after a first page was fetched. -/
theorem dataSourceVariableRead_surfaces_errors_witness :
    ∃ calls, dataSourceVariableRead varData varClientFailing =
      some { err := some (GoError.wrapf "Error retrieving variable list: "
                      (GoError.client "unauthorized"))
             d := varData
             calls := calls } :=
  (dataSourceVariableRead_surfaces_errors varData varClientFailing
    [Except.ok varPage1, Except.error (GoError.client "unauthorized")]
    (fun _ => rfl) (fun h => absurd rfl h)).1 [varPage1] (GoError.client "unauthorized") []
    rfl (by decide)

/-! ## Properties of the two kinds of map -/

theorem BoolMap.mem_set (m : BoolMap) (k x : String) : x ∈ m.set k ↔ x = k ∨ x ∈ m := by
  unfold BoolMap.set
  by_cases h : k ∈ m
  · rw [if_pos h]
    constructor
    · exact Or.inr
    · rintro (rfl | hx)
      · exact h
      · exact hx
  · rw [if_neg h, List.mem_append, List.mem_singleton]
    exact Or.comm

theorem StrMap.keys_set (m : StrMap) (k v : String) :
    (m.set k v).keys = m.keys.filter (fun x => decide (x ≠ k)) ++ [k] := by
  unfold StrMap.set StrMap.keys
  rw [List.map_append, List.map_singleton, List.filter_map]
  rfl

theorem StrMap.mem_keys_set (m : StrMap) (k v x : String) :
    x ∈ (m.set k v).keys ↔ x = k ∨ x ∈ m.keys := by
  rw [StrMap.keys_set, List.mem_append, List.mem_singleton, List.mem_filter]
  by_cases h : x = k
  · simp [h]
  · simp [h]

theorem StrMap.nodup_keys_set (m : StrMap) (k v : String) (h : m.keys.Nodup) :
    (m.set k v).keys.Nodup := by
  rw [StrMap.keys_set]
  refine List.Nodup.append (h.filter _) (List.nodup_singleton k) ?_
  intro x hx hk
  rw [List.mem_singleton] at hk
  rw [List.mem_filter] at hx
  simp [hk] at hx

theorem StrMap.get?_append (m m' : StrMap) (k : String) :
    StrMap.get? (m ++ m') k = (StrMap.get? m k).or (StrMap.get? m' k) := by
  induction m with
  | nil => simp [StrMap.get?]
  | cons e m ih =>
    by_cases h : e.1 = k
    · simp [StrMap.get?, h]
    · simp only [List.cons_append, StrMap.get?, if_neg h]
      exact ih

theorem StrMap.get?_filter_self (m : StrMap) (k : String) :
    StrMap.get? (m.filter (fun e => decide (e.1 ≠ k))) k = none := by
  induction m with
  | nil => rfl
  | cons e m ih =>
    by_cases h : e.1 = k
    · simpa [List.filter_cons, h] using ih
    · simpa [List.filter_cons, h, StrMap.get?] using ih

theorem StrMap.get?_filter_ne (m : StrMap) (k x : String) (hx : x ≠ k) :
    StrMap.get? (m.filter (fun e => decide (e.1 ≠ k))) x = StrMap.get? m x := by
  induction m with
  | nil => rfl
  | cons e m ih =>
    by_cases h : e.1 = k
    · have hex : ¬ e.1 = x := fun hex => hx (hex ▸ h)
      rw [List.filter_cons_of_neg (by simp [h]), ih, StrMap.get?, if_neg hex]
    · rw [List.filter_cons_of_pos (by simp [h])]
      by_cases hex : e.1 = x
      · rw [StrMap.get?, if_pos hex, StrMap.get?, if_pos hex]
      · rw [StrMap.get?, if_neg hex, StrMap.get?, if_neg hex, ih]

theorem StrMap.get?_set_self (m : StrMap) (k v : String) :
    StrMap.get? (m.set k v) k = some v := by
  unfold StrMap.set
  rw [StrMap.get?_append, StrMap.get?_filter_self]
  simp [StrMap.get?]

theorem StrMap.get?_set_ne (m : StrMap) (k v x : String) (hx : x ≠ k) :
    StrMap.get? (m.set k v) x = StrMap.get? m x := by
  unfold StrMap.set
  rw [StrMap.get?_append, StrMap.get?_filter_ne m k x hx]
  have hk : ¬ k = x := fun h => hx h.symm
  simp [StrMap.get?, hk]

theorem StrMap.get?_isSome_iff (m : StrMap) (k : String) :
    (∃ v, StrMap.get? m k = some v) ↔ k ∈ m.keys := by
  induction m with
  | nil => simp [StrMap.get?, StrMap.keys]
  | cons e m ih =>
    by_cases h : e.1 = k
    · simp [StrMap.get?, StrMap.keys, h]
    · have hk : ¬ k = e.1 := fun hk => h hk.symm
      simp only [StrMap.get?, if_neg h, StrMap.keys, List.map_cons, List.mem_cons, hk,
        false_or]
      exact ih

theorem keys_setMapAttribute (m : StrMap) :
    (setMapAttribute m).keys = m.keys.filter (fun k => decide (k ≠ "%" ∧ k ≠ "#")) := by
  unfold setMapAttribute StrMap.keys
  rw [List.filter_map]
  rfl

theorem mem_keys_setMapAttribute (m : StrMap) (k : String) :
    k ∈ (setMapAttribute m).keys ↔ (k ≠ "%" ∧ k ≠ "#") ∧ k ∈ m.keys := by
  rw [keys_setMapAttribute, List.mem_filter, decide_eq_true_eq]
  exact And.comm

theorem get?_setMapAttribute (m : StrMap) (k v : String)
    (h : StrMap.get? (setMapAttribute m) k = some v) : StrMap.get? m k = some v := by
  induction m with
  | nil => simp [setMapAttribute, StrMap.get?] at h
  | cons e m ih =>
    unfold setMapAttribute at h ih
    by_cases he : e.1 ≠ "%" ∧ e.1 ≠ "#"
    · rw [List.filter_cons_of_pos (by simpa using he)] at h
      by_cases hek : e.1 = k
      · rw [StrMap.get?, if_pos hek] at h
        rw [StrMap.get?, if_pos hek, h]
      · rw [StrMap.get?, if_neg hek] at h
        rw [StrMap.get?, if_neg hek]
        exact ih h
    · rw [List.filter_cons_of_neg (by simpa using he)] at h
      have hm := ih h
      have hk : k ∈ StrMap.keys (m.filter (fun e => decide (e.1 ≠ "%" ∧ e.1 ≠ "#"))) :=
        (StrMap.get?_isSome_iff _ k).mp ⟨v, h⟩
      have hk' := ((mem_keys_setMapAttribute m k).mp hk).1
      have hek : ¬ e.1 = k := by
        intro hek
        rw [hek] at he
        exact he hk'
      rw [StrMap.get?, if_neg hek]
      exact hm

/-! ## Properties of the workspace-IDs reader -/

theorem namesStep_foldl_mem (l : List (Option String)) (acc : String × BoolMap) (k : String) :
    k ∈ (l.foldl namesStep acc).2 ↔ k ∈ acc.2 ∨ some k ∈ l := by
  induction l generalizing acc with
  | nil => simp
  | cons n l ih =>
    rw [List.foldl_cons, ih]
    cases n with
    | none => simp [namesStep]
    | some s =>
      simp only [namesStep, BoolMap.mem_set, List.mem_cons, Option.some.injEq]
      tauto

theorem excludeStep_foldl_mem (l : List (Option String)) (acc : BoolMap × String)
    (t : String) :
    t ∈ (l.foldl excludeStep acc).1 ↔
      t ∈ acc.1 ∨ (some t ∈ l ∧ len (TrimSpace t) ≠ 0) := by
  induction l generalizing acc with
  | nil => simp
  | cons n l ih =>
    rw [List.foldl_cons, ih]
    cases n with
    | none => simp [excludeStep]
    | some s =>
      by_cases hs : len (TrimSpace s) ≠ 0
      · simp only [excludeStep, if_pos hs, BoolMap.mem_set, List.mem_cons, Option.some.injEq]
        constructor
        · rintro ((rfl | h) | h)
          · exact Or.inr ⟨Or.inl rfl, hs⟩
          · exact Or.inl h
          · exact Or.inr ⟨Or.inr h.1, h.2⟩
        · rintro (h | ⟨rfl | h, ht⟩)
          · exact Or.inl (Or.inr h)
          · exact Or.inl (Or.inl rfl)
          · exact Or.inr ⟨h, ht⟩
      · simp only [excludeStep, if_neg hs, List.mem_cons, Option.some.injEq]
        constructor
        · rintro (h | h)
          · exact Or.inl h
          · exact Or.inr ⟨Or.inr h.1, h.2⟩
        · rintro (h | ⟨rfl | h, ht⟩)
          · exact Or.inl h
          · exact absurd ht hs
          · exact Or.inr ⟨h, ht⟩

theorem tagStep_foldl_mem (l : List (Option String)) (acc : String × List String)
    (t : String) :
    t ∈ (l.foldl tagStep acc).2 ↔
      t ∈ acc.2 ∨ (some t ∈ l ∧ len (TrimSpace t) ≠ 0) := by
  induction l generalizing acc with
  | nil => simp
  | cons n l ih =>
    rw [List.foldl_cons, ih]
    cases n with
    | none => simp [tagStep]
    | some s =>
      by_cases hs : len (TrimSpace s) ≠ 0
      · simp only [tagStep, if_pos hs, List.mem_append, List.mem_cons, List.not_mem_nil,
          or_false, Option.some.injEq]
        constructor
        · rintro ((h | rfl) | h)
          · exact Or.inl h
          · exact Or.inr ⟨Or.inl rfl, hs⟩
          · exact Or.inr ⟨Or.inr h.1, h.2⟩
        · rintro (h | ⟨rfl | h, ht⟩)
          · exact Or.inl (Or.inl h)
          · exact Or.inl (Or.inr rfl)
          · exact Or.inr ⟨h, ht⟩
      · simp only [tagStep, if_neg hs, List.mem_cons, Option.some.injEq]
        constructor
        · rintro (h | h)
          · exact Or.inl h
          · exact Or.inr ⟨Or.inr h.1, h.2⟩
        · rintro (h | ⟨rfl | h, ht⟩)
          · exact Or.inl h
          · exact absurd ht hs
          · exact Or.inr ⟨h, ht⟩

theorem locals_names_mem (d : WorkspaceIDsData) (k : String) :
    k ∈ (workspaceIDsLocals d).names ↔ some k ∈ d.names := by
  show k ∈ (d.names.foldl namesStep ("", [])).2 ↔ some k ∈ d.names
  rw [namesStep_foldl_mem]
  simp

theorem locals_exclude_mem (d : WorkspaceIDsData) (t : String) :
    t ∈ (workspaceIDsLocals d).excludeTagLookupMap ↔
      some t ∈ d.exclude_tags ∧ len (TrimSpace t) ≠ 0 := by
  show t ∈ (d.exclude_tags.foldl excludeStep ([], "")).1 ↔ _
  rw [excludeStep_foldl_mem]
  simp

theorem locals_isWildcard (d : WorkspaceIDsData) :
    (workspaceIDsLocals d).isWildcard = true ↔ some "*" ∈ d.names := by
  show decide ("*" ∈ (workspaceIDsLocals d).names) = true ↔ _
  rw [decide_eq_true_eq, locals_names_mem]

theorem locals_hasOnlyTags (d : WorkspaceIDsData) :
    (workspaceIDsLocals d).hasOnlyTags = true ↔
      (∀ n ∈ d.names, n = none) ∧ ∃ t, some t ∈ d.tag_names ∧ len (TrimSpace t) ≠ 0 := by
  show (decide ((workspaceIDsLocals d).tagSearchParts.length > 0) &&
      decide ((workspaceIDsLocals d).names.length = 0)) = true ↔ _
  rw [Bool.and_eq_true, decide_eq_true_eq, decide_eq_true_eq, gt_iff_lt,
    List.length_pos_iff_exists_mem, List.length_eq_zero, List.eq_nil_iff_forall_not_mem]
  have hn : (∀ k, k ∉ (workspaceIDsLocals d).names) ↔ ∀ n ∈ d.names, n = none := by
    constructor
    · intro h n hn
      cases n with
      | none => rfl
      | some k => exact absurd ((locals_names_mem d k).mpr hn) (h k)
    · intro h k hk
      have := h _ ((locals_names_mem d k).mp hk)
      simp at this
  have ht : (∃ t, t ∈ (workspaceIDsLocals d).tagSearchParts) ↔
      ∃ t, some t ∈ d.tag_names ∧ len (TrimSpace t) ≠ 0 := by
    refine exists_congr (fun t => ?_)
    show t ∈ (d.tag_names.foldl tagStep ((d.names.foldl namesStep ("", [])).1, [])).2 ↔ _
    rw [tagStep_foldl_mem]
    simp
  rw [hn, ht]
  exact And.comm

theorem hasExcludedTag_iff (d : WorkspaceIDsData) (w : Workspace) :
    hasExcludedTag (workspaceIDsLocals d).excludeTagLookupMap w = true ↔
      ∃ t ∈ w.TagNames, some t ∈ d.exclude_tags ∧ len (TrimSpace t) ≠ 0 := by
  unfold hasExcludedTag
  rw [List.any_eq_true]
  refine exists_congr (fun t => and_congr_right (fun _ => ?_))
  rw [decide_eq_true_eq, locals_exclude_mem]

/-- What the item loop has built, from empty maps, after the items `ws`: the
two maps have the same keys, each once; the keys are the names of the items
that passed the test of line 136; and every entry comes from such an item. -/
theorem workspaceStep_foldl_spec (organization : String) (isWildcard hasOnlyTags : Bool)
    (names excludeTagLookupMap : BoolMap) (ws : List Workspace) :
    (ws.foldl (workspaceStep organization isWildcard hasOnlyTags names excludeTagLookupMap)
        ([], [])).1.keys =
      (ws.foldl (workspaceStep organization isWildcard hasOnlyTags names excludeTagLookupMap)
        ([], [])).2.keys ∧
    (ws.foldl (workspaceStep organization isWildcard hasOnlyTags names excludeTagLookupMap)
        ([], [])).2.keys.Nodup ∧
    (∀ k, k ∈ (ws.foldl
        (workspaceStep organization isWildcard hasOnlyTags names excludeTagLookupMap)
        ([], [])).2.keys ↔
      ∃ w ∈ ws, w.Name = k ∧
        ((hasOnlyTags || (isWildcard || decide (w.Name ∈ names))) &&
          !hasExcludedTag excludeTagLookupMap w) = true) ∧
    (∀ k v, StrMap.get? (ws.foldl
        (workspaceStep organization isWildcard hasOnlyTags names excludeTagLookupMap)
        ([], [])).2 k = some v →
      ∃ w ∈ ws, w.Name = k ∧ w.ID = v ∧
        ((hasOnlyTags || (isWildcard || decide (w.Name ∈ names))) &&
          !hasExcludedTag excludeTagLookupMap w) = true) ∧
    (∀ k v, StrMap.get? (ws.foldl
        (workspaceStep organization isWildcard hasOnlyTags names excludeTagLookupMap)
        ([], [])).1 k = some v → v = organization ++ "/" ++ k) := by
  induction ws using List.reverseRecOn with
  | nil =>
    refine ⟨rfl, List.nodup_nil, ?_, ?_, ?_⟩
    · intro k
      simp [StrMap.keys]
    · intro k v h
      simp [StrMap.get?] at h
    · intro k v h
      simp [StrMap.get?] at h
  | append_singleton ws w ih =>
    obtain ⟨hkeys, hnodup, hmem, hids, hfull⟩ := ih
    rw [List.foldl_append, List.foldl_cons, List.foldl_nil]
    generalize ws.foldl
      (workspaceStep organization isWildcard hasOnlyTags names excludeTagLookupMap)
      ([], []) = r at hkeys hnodup hmem hids hfull ⊢
    by_cases hc : ((hasOnlyTags || (isWildcard || decide (w.Name ∈ names))) &&
        !hasExcludedTag excludeTagLookupMap w) = true
    · have hstep : workspaceStep organization isWildcard hasOnlyTags names
          excludeTagLookupMap r w =
          (r.1.set w.Name (organization ++ "/" ++ w.Name), r.2.set w.Name w.ID) := by
        unfold workspaceStep
        simp only [hc, if_true]
      rw [hstep]
      refine ⟨?_, StrMap.nodup_keys_set _ _ _ hnodup, ?_, ?_, ?_⟩
      · show (r.1.set _ _).keys = (r.2.set _ _).keys
        rw [StrMap.keys_set, StrMap.keys_set, hkeys]
      · intro k
        show k ∈ (r.2.set _ _).keys ↔ _
        rw [StrMap.mem_keys_set, hmem]
        constructor
        · rintro (rfl | ⟨w', hw', hn, hc'⟩)
          · exact ⟨w, by simp, rfl, hc⟩
          · exact ⟨w', by simp [hw'], hn, hc'⟩
        · rintro ⟨w', hw', hn, hc'⟩
          rcases List.mem_append.mp hw' with hw' | hw'
          · exact Or.inr ⟨w', hw', hn, hc'⟩
          · rw [List.mem_singleton] at hw'
            subst hw'
            exact Or.inl hn.symm
      · intro k v h
        change StrMap.get? (r.2.set w.Name w.ID) k = some v at h
        by_cases hk : k = w.Name
        · rw [hk, StrMap.get?_set_self] at h
          exact ⟨w, by simp, hk.symm, Option.some.inj h, hc⟩
        · rw [StrMap.get?_set_ne _ _ _ _ hk] at h
          obtain ⟨w', hw', hn, hv, hc'⟩ := hids k v h
          exact ⟨w', by simp [hw'], hn, hv, hc'⟩
      · intro k v h
        change StrMap.get? (r.1.set w.Name (organization ++ "/" ++ w.Name)) k = some v at h
        by_cases hk : k = w.Name
        · rw [hk, StrMap.get?_set_self] at h
          rw [hk]
          exact (Option.some.inj h).symm
        · rw [StrMap.get?_set_ne _ _ _ _ hk] at h
          exact hfull k v h
    · have hstep : workspaceStep organization isWildcard hasOnlyTags names
          excludeTagLookupMap r w = r := by
        unfold workspaceStep
        simp only [hc, if_false]
        rfl
      rw [hstep]
      refine ⟨hkeys, hnodup, ?_, ?_, hfull⟩
      · intro k
        rw [hmem]
        constructor
        · rintro ⟨w', hw', hn, hc'⟩
          exact ⟨w', by simp [hw'], hn, hc'⟩
        · rintro ⟨w', hw', hn, hc'⟩
          rcases List.mem_append.mp hw' with hw' | hw'
          · exact ⟨w', hw', hn, hc'⟩
          · rw [List.mem_singleton] at hw'
            subst hw'
            exact absurd hc' hc
      · intro k v h
        obtain ⟨w', hw', hn, hv, hc'⟩ := hids k v h
        exact ⟨w', by simp [hw'], hn, hv, hc'⟩

theorem workspaceLoop_more (organization : String) (isWildcard hasOnlyTags : Bool)
    (names excludeTagLookupMap : BoolMap) (p : WorkspaceList)
    (rs : List (Except GoError WorkspaceList)) (hp : p.CurrentPage < p.TotalPages)
    (options : WorkspaceListOptions) (maps : StrMap × StrMap)
    (calls : List WorkspaceListOptions) :
    workspaceLoop organization isWildcard hasOnlyTags names excludeTagLookupMap
        (Except.ok p :: rs) options maps calls =
      workspaceLoop organization isWildcard hasOnlyTags names excludeTagLookupMap rs
        { options with PageNumber := p.NextPage }
        (p.Items.foldl
          (workspaceStep organization isWildcard hasOnlyTags names excludeTagLookupMap) maps)
        (calls ++ [options]) := by
  have hp' : ¬ p.CurrentPage ≥ p.TotalPages := by omega
  rw [workspaceLoop]
  simp only [hp', if_false]

/-- On a list of results that starts with the pages `pre`, none of them the
last one, followed by a last page, the loop ends and returns the maps built
from the items of all these pages, in order. -/
theorem workspaceLoop_complete (organization : String) (isWildcard hasOnlyTags : Bool)
    (names excludeTagLookupMap : BoolMap) (pre : List WorkspaceList) (last : WorkspaceList)
    (rest : List (Except GoError WorkspaceList))
    (hpre : ∀ p ∈ pre, p.CurrentPage < p.TotalPages)
    (hlast : last.CurrentPage ≥ last.TotalPages)
    (options : WorkspaceListOptions) (maps : StrMap × StrMap)
    (calls : List WorkspaceListOptions) :
    ∃ calls',
      workspaceLoop organization isWildcard hasOnlyTags names excludeTagLookupMap
          (pre.map Except.ok ++ Except.ok last :: rest) options maps calls =
        some (Except.ok
          (((pre ++ [last]).flatMap WorkspaceList.Items).foldl
            (workspaceStep organization isWildcard hasOnlyTags names excludeTagLookupMap)
            maps), calls') := by
  induction pre generalizing options maps calls with
  | nil =>
    refine ⟨calls ++ [options], ?_⟩
    simp [workspaceLoop, hlast]
  | cons p pre ih =>
    have hp : p.CurrentPage < p.TotalPages := hpre p (List.mem_cons_self _ _)
    obtain ⟨calls', h⟩ := ih (fun q hq => hpre q (List.mem_cons_of_mem _ hq))
      { options with PageNumber := p.NextPage }
      (p.Items.foldl
        (workspaceStep organization isWildcard hasOnlyTags names excludeTagLookupMap) maps)
      (calls ++ [options])
    refine ⟨calls', ?_⟩
    rw [List.map_cons, List.cons_append, workspaceLoop_more _ _ _ _ _ p _ hp, h]
    simp [List.flatMap_cons, List.foldl_append]

/-- The read on a complete sequence of pages: no error, and the two attributes
are the maps the item loop builds from the fetched items, as `d.Set` stores
them. -/
theorem dataSourceTFEWorkspaceIDsRead_complete (HashString : String → Int)
    (d : WorkspaceIDsData) (pre : List WorkspaceList) (last : WorkspaceList)
    (rest : List (Except GoError WorkspaceList))
    (hpre : ∀ p ∈ pre, p.CurrentPage < p.TotalPages)
    (hlast : last.CurrentPage ≥ last.TotalPages) :
    ∃ o, dataSourceTFEWorkspaceIDsRead HashString d
        (pre.map Except.ok ++ Except.ok last :: rest) = some o ∧
      o.err = none ∧
      o.d.full_names = setMapAttribute
        (((pre ++ [last]).flatMap WorkspaceList.Items).foldl
          (workspaceStep (workspaceIDsLocals d).organization (workspaceIDsLocals d).isWildcard
            (workspaceIDsLocals d).hasOnlyTags (workspaceIDsLocals d).names
            (workspaceIDsLocals d).excludeTagLookupMap) ([], [])).1 ∧
      o.d.ids = setMapAttribute
        (((pre ++ [last]).flatMap WorkspaceList.Items).foldl
          (workspaceStep (workspaceIDsLocals d).organization (workspaceIDsLocals d).isWildcard
            (workspaceIDsLocals d).hasOnlyTags (workspaceIDsLocals d).names
            (workspaceIDsLocals d).excludeTagLookupMap) ([], [])).2 := by
  obtain ⟨calls, h⟩ := workspaceLoop_complete (workspaceIDsLocals d).organization
    (workspaceIDsLocals d).isWildcard (workspaceIDsLocals d).hasOnlyTags
    (workspaceIDsLocals d).names (workspaceIDsLocals d).excludeTagLookupMap pre last rest
    hpre hlast (workspaceIDsLocals d).options ([], []) []
  unfold dataSourceTFEWorkspaceIDsRead
  simp only [h]
  exact ⟨_, rfl, rfl, rfl, rfl⟩

/-- What the two attributes hold after a complete read, in terms of the
fetched items `ws`: the same keys, each once; a key is a name other than "%"
and "#" of an item that passed the test of line 136; every entry comes from
such an item. -/
theorem workspace_attributes_spec (d : WorkspaceIDsData) (ws : List Workspace)
    (fullNames ids : StrMap)
    (hfull : fullNames = setMapAttribute
      (ws.foldl
        (workspaceStep (workspaceIDsLocals d).organization (workspaceIDsLocals d).isWildcard
          (workspaceIDsLocals d).hasOnlyTags (workspaceIDsLocals d).names
          (workspaceIDsLocals d).excludeTagLookupMap) ([], [])).1)
    (hids : ids = setMapAttribute
      (ws.foldl
        (workspaceStep (workspaceIDsLocals d).organization (workspaceIDsLocals d).isWildcard
          (workspaceIDsLocals d).hasOnlyTags (workspaceIDsLocals d).names
          (workspaceIDsLocals d).excludeTagLookupMap) ([], [])).2) :
    fullNames.keys = ids.keys ∧ ids.keys.Nodup ∧
    (∀ k, k ∈ ids.keys ↔ (k ≠ "%" ∧ k ≠ "#") ∧ ∃ w ∈ ws, w.Name = k ∧
      (((workspaceIDsLocals d).hasOnlyTags ||
          ((workspaceIDsLocals d).isWildcard ||
            decide (w.Name ∈ (workspaceIDsLocals d).names))) &&
        !hasExcludedTag (workspaceIDsLocals d).excludeTagLookupMap w) = true) ∧
    (∀ k v, StrMap.get? ids k = some v → ∃ w ∈ ws, w.Name = k ∧ w.ID = v ∧
      (((workspaceIDsLocals d).hasOnlyTags ||
          ((workspaceIDsLocals d).isWildcard ||
            decide (w.Name ∈ (workspaceIDsLocals d).names))) &&
        !hasExcludedTag (workspaceIDsLocals d).excludeTagLookupMap w) = true) ∧
    (∀ k v, StrMap.get? fullNames k = some v →
      v = (workspaceIDsLocals d).organization ++ "/" ++ k) := by
  obtain ⟨hkeys, hnodup, hmem, hget, hgetf⟩ := workspaceStep_foldl_spec
    (workspaceIDsLocals d).organization
    (workspaceIDsLocals d).isWildcard (workspaceIDsLocals d).hasOnlyTags
    (workspaceIDsLocals d).names (workspaceIDsLocals d).excludeTagLookupMap ws
  subst hfull hids
  refine ⟨?_, ?_, ?_, ?_, ?_⟩
  · rw [keys_setMapAttribute, keys_setMapAttribute, hkeys]
  · rw [keys_setMapAttribute]
    exact hnodup.filter _
  · intro k
    rw [mem_keys_setMapAttribute, hmem]
  · intro k v h
    exact hget k v (get?_setMapAttribute _ k v h)
  · intro k v h
    exact hgetf k v (get?_setMapAttribute _ k v h)

/-- The test of line 136, on the lookups built from the configuration `d`,
in terms of the configured lists. -/
theorem workspace_test_iff (d : WorkspaceIDsData) (w : Workspace) :
    (((workspaceIDsLocals d).hasOnlyTags ||
        ((workspaceIDsLocals d).isWildcard ||
          decide (w.Name ∈ (workspaceIDsLocals d).names))) &&
      !hasExcludedTag (workspaceIDsLocals d).excludeTagLookupMap w) = true ↔
    (¬ ∃ t ∈ w.TagNames, some t ∈ d.exclude_tags ∧ len (TrimSpace t) ≠ 0) ∧
      (some "*" ∈ d.names ∨ some w.Name ∈ d.names ∨
        ((∀ n ∈ d.names, n = none) ∧
          ∃ t, some t ∈ d.tag_names ∧ len (TrimSpace t) ≠ 0)) := by
  rw [Bool.and_eq_true, Bool.or_eq_true, Bool.or_eq_true, decide_eq_true_eq,
    Bool.not_eq_true', ← Bool.not_eq_true, hasExcludedTag_iff, locals_hasOnlyTags,
    locals_isWildcard, locals_names_mem]
  constructor
  · rintro ⟨h | h | h, he⟩
    · exact ⟨he, Or.inr (Or.inr h)⟩
    · exact ⟨he, Or.inl h⟩
    · exact ⟨he, Or.inr (Or.inl h)⟩
  · rintro ⟨he, h | h | h⟩
    · exact ⟨Or.inr (Or.inl h), he⟩
    · exact ⟨Or.inr (Or.inr h), he⟩
    · exact ⟨Or.inl h, he⟩

/-- C2, as stated, fails in both directions.  With a names list whose only
entry is nil and one tag name, the fetched workspace "web" becomes a key of
"ids", although the names list is not empty and holds neither "*" nor "web".
With the names list ["*"], the fetched workspace named "%" meets every
condition of the claim and is no key of "ids". -/
theorem dataSourceTFEWorkspaceIDsRead_nil_name_and_reserved_key :
    (∃ o, dataSourceTFEWorkspaceIDsRead (fun _ => 0) wsDataNilName [Except.ok wsPage2] = some o ∧
      "web" ∈ o.d.ids.keys ∧
      ¬ ∃ w ∈ [wsPage2].flatMap WorkspaceList.Items, w.Name = "web" ∧
        (¬ ∃ t ∈ w.TagNames, some t ∈ wsDataNilName.exclude_tags ∧ len (TrimSpace t) ≠ 0) ∧
        (some "*" ∈ wsDataNilName.names ∨ some "web" ∈ wsDataNilName.names ∨
          (wsDataNilName.names = [] ∧
            ∃ t, some t ∈ wsDataNilName.tag_names ∧ len (TrimSpace t) ≠ 0))) ∧
    (∃ o, dataSourceTFEWorkspaceIDsRead (fun _ => 0) wsDataWildcard
        [Except.ok wsPageReserved] = some o ∧
      "%" ∉ o.d.ids.keys ∧
      ∃ w ∈ [wsPageReserved].flatMap WorkspaceList.Items, w.Name = "%" ∧
        (¬ ∃ t ∈ w.TagNames, some t ∈ wsDataWildcard.exclude_tags ∧ len (TrimSpace t) ≠ 0) ∧
        (some "*" ∈ wsDataWildcard.names ∨ some "%" ∈ wsDataWildcard.names ∨
          (wsDataWildcard.names = [] ∧
            ∃ t, some t ∈ wsDataWildcard.tag_names ∧ len (TrimSpace t) ≠ 0))) := by
  constructor
  · refine ⟨_, rfl, by decide, ?_⟩
    rintro ⟨w, -, -, -, h | h | h⟩
    · revert h
      decide
    · revert h
      decide
    · exact absurd h.1 (by decide)
  · refine ⟨_, rfl, by decide, { ID := "ws-2", Name := "%", TagNames := [] }, by decide, rfl,
      ?_, Or.inl (by decide)⟩
    rintro ⟨t, ht, -⟩
    exact List.not_mem_nil t ht

/-- C2, amended: on a complete sequence of fetched pages, a name `k` is a key
of "ids" exactly when `k` is neither "%" nor "#", some fetched workspace is
named `k`, none of its tag names is a non-blank member of exclude_tags, and
"*" is in names, or `k` is in names, or names has no entry other than nil ones
while tag_names has a non-blank entry. -/
theorem dataSourceTFEWorkspaceIDsRead_keys (HashString : String → Int)
    (d : WorkspaceIDsData) (pre : List WorkspaceList) (last : WorkspaceList)
    (rest : List (Except GoError WorkspaceList))
    (hpre : ∀ p ∈ pre, p.CurrentPage < p.TotalPages)
    (hlast : last.CurrentPage ≥ last.TotalPages) :
    ∃ o, dataSourceTFEWorkspaceIDsRead HashString d
        (pre.map Except.ok ++ Except.ok last :: rest) = some o ∧
      o.err = none ∧
      ∀ k, k ∈ o.d.ids.keys ↔
        (k ≠ "%" ∧ k ≠ "#") ∧
        ∃ w ∈ (pre ++ [last]).flatMap WorkspaceList.Items, w.Name = k ∧
          (¬ ∃ t ∈ w.TagNames, some t ∈ d.exclude_tags ∧ len (TrimSpace t) ≠ 0) ∧
          (some "*" ∈ d.names ∨ some k ∈ d.names ∨
            ((∀ n ∈ d.names, n = none) ∧
              ∃ t, some t ∈ d.tag_names ∧ len (TrimSpace t) ≠ 0)) := by
  obtain ⟨o, ho, herr, hfn, hid⟩ :=
    dataSourceTFEWorkspaceIDsRead_complete HashString d pre last rest hpre hlast
  obtain ⟨-, -, hmem, -, -⟩ := workspace_attributes_spec d
    ((pre ++ [last]).flatMap WorkspaceList.Items) o.d.full_names o.d.ids hfn hid
  refine ⟨o, ho, herr, fun k => ?_⟩
  rw [hmem k]
  refine and_congr_right (fun _ => ?_)
  constructor
  · rintro ⟨w, hw, hn, hc⟩
    have := (workspace_test_iff d w).mp hc
    rw [hn] at this
    exact ⟨w, hw, hn, this⟩
  · rintro ⟨w, hw, hn, hc⟩
    rw [← hn] at hc
    exact ⟨w, hw, hn, (workspace_test_iff d w).mpr hc⟩

/-- Witness of C2 (amended): two configured names match fetched workspaces, of
which one carries an excluded tag. -/
theorem dataSourceTFEWorkspaceIDsRead_keys_witness :
    ∃ o, dataSourceTFEWorkspaceIDsRead (fun _ => 0) wsData
        ([wsPage1].map Except.ok ++ Except.ok wsPage2 :: []) = some o ∧
      o.err = none ∧
      ∀ k, k ∈ o.d.ids.keys ↔
        (k ≠ "%" ∧ k ≠ "#") ∧
        ∃ w ∈ ([wsPage1] ++ [wsPage2]).flatMap WorkspaceList.Items, w.Name = k ∧
          (¬ ∃ t ∈ w.TagNames, some t ∈ wsData.exclude_tags ∧ len (TrimSpace t) ≠ 0) ∧
          (some "*" ∈ wsData.names ∨ some k ∈ wsData.names ∨
            ((∀ n ∈ wsData.names, n = none) ∧
              ∃ t, some t ∈ wsData.tag_names ∧ len (TrimSpace t) ≠ 0)) :=
  dataSourceTFEWorkspaceIDsRead_keys (fun _ => 0) wsData [wsPage1] wsPage2 []
    (by decide) (by decide)

/-- C3: an item that carries a tag name which is a non-blank member of
exclude_tags leaves both maps as they are; and on a complete sequence of
fetched pages every entry of "ids" and every key of "full_names" was written
by a fetched workspace that carries no such tag. -/
theorem dataSourceTFEWorkspaceIDsRead_excludes (HashString : String → Int)
    (d : WorkspaceIDsData) (pre : List WorkspaceList) (last : WorkspaceList)
    (rest : List (Except GoError WorkspaceList))
    (hpre : ∀ p ∈ pre, p.CurrentPage < p.TotalPages)
    (hlast : last.CurrentPage ≥ last.TotalPages) :
    (∀ (w : Workspace) (maps : StrMap × StrMap),
      (∃ t ∈ w.TagNames, some t ∈ d.exclude_tags ∧ len (TrimSpace t) ≠ 0) →
      workspaceStep (workspaceIDsLocals d).organization (workspaceIDsLocals d).isWildcard
        (workspaceIDsLocals d).hasOnlyTags (workspaceIDsLocals d).names
        (workspaceIDsLocals d).excludeTagLookupMap maps w = maps) ∧
    ∃ o, dataSourceTFEWorkspaceIDsRead HashString d
        (pre.map Except.ok ++ Except.ok last :: rest) = some o ∧
      (∀ k v, StrMap.get? o.d.ids k = some v →
        ∃ w ∈ (pre ++ [last]).flatMap WorkspaceList.Items, w.Name = k ∧ w.ID = v ∧
          ¬ ∃ t ∈ w.TagNames, some t ∈ d.exclude_tags ∧ len (TrimSpace t) ≠ 0) ∧
      (∀ k ∈ o.d.full_names.keys,
        ∃ w ∈ (pre ++ [last]).flatMap WorkspaceList.Items, w.Name = k ∧
          ¬ ∃ t ∈ w.TagNames, some t ∈ d.exclude_tags ∧ len (TrimSpace t) ≠ 0) := by
  constructor
  · intro w maps hw
    have hex := (hasExcludedTag_iff d w).mpr hw
    unfold workspaceStep
    simp [hex]
  · obtain ⟨o, ho, -, hfn, hid⟩ :=
      dataSourceTFEWorkspaceIDsRead_complete HashString d pre last rest hpre hlast
    obtain ⟨hkeys, -, hmem, hids, -⟩ := workspace_attributes_spec d
      ((pre ++ [last]).flatMap WorkspaceList.Items) o.d.full_names o.d.ids hfn hid
    refine ⟨o, ho, ?_, ?_⟩
    · intro k v h
      obtain ⟨w, hw, hn, hv, hc⟩ := hids k v h
      exact ⟨w, hw, hn, hv, ((workspace_test_iff d w).mp hc).1⟩
    · intro k hk
      rw [hkeys] at hk
      obtain ⟨-, w, hw, hn, hc⟩ := (hmem k).mp hk
      exact ⟨w, hw, hn, ((workspace_test_iff d w).mp hc).1⟩

/-- Witness of C3: the workspace "db" carries the excluded tag "legacy". -/
theorem dataSourceTFEWorkspaceIDsRead_excludes_witness :
    workspaceStep (workspaceIDsLocals wsData).organization (workspaceIDsLocals wsData).isWildcard
      (workspaceIDsLocals wsData).hasOnlyTags (workspaceIDsLocals wsData).names
      (workspaceIDsLocals wsData).excludeTagLookupMap ([("app", "acme/app")], [("app", "ws-1")])
      { ID := "ws-2", Name := "db", TagNames := ["prod", "legacy"] } =
      ([("app", "acme/app")], [("app", "ws-1")]) :=
  (dataSourceTFEWorkspaceIDsRead_excludes (fun _ => 0) wsData [wsPage1] wsPage2 []
    (by decide) (by decide)).1 _ _ ⟨"legacy", by decide, by decide, by decide⟩

/-- C4, as stated, fails: with the names list ["*"] and no excluded tag, the
fetched workspace named "%" is no key of "ids" nor of "full_names", and each
holds three keys for four distinct fetched names. -/
theorem dataSourceTFEWorkspaceIDsRead_wildcard_reserved_key :
    wsDataWildcard.names = [some "*"] ∧ wsDataWildcard.exclude_tags = [] ∧
    ∃ o, dataSourceTFEWorkspaceIDsRead (fun _ => 0) wsDataWildcard
        [Except.ok wsPageReserved] = some o ∧
      o.err = none ∧
      (∃ w ∈ [wsPageReserved].flatMap WorkspaceList.Items,
        w.Name ∉ o.d.ids.keys ∧ w.Name ∉ o.d.full_names.keys) ∧
      o.d.ids.keys.length = 3 ∧ o.d.full_names.keys.length = 3 ∧
      ((([wsPageReserved].flatMap WorkspaceList.Items).map Workspace.Name).dedup).length =
        4 := by
  refine ⟨rfl, rfl, _, rfl, rfl,
    ⟨{ ID := "ws-2", Name := "%", TagNames := [] }, by decide, by decide, by decide⟩,
    by decide, by decide, by decide⟩

/-- C4, amended: when names is the list with the single entry "*" and
exclude_tags is empty, on a complete sequence of fetched pages the name of
every fetched workspace, unless it is "%" or "#", is a key of "ids" and of
"full_names", and each map has as many keys as there are distinct fetched
workspace names other than "%" and "#". -/
theorem dataSourceTFEWorkspaceIDsRead_wildcard (HashString : String → Int)
    (d : WorkspaceIDsData) (pre : List WorkspaceList) (last : WorkspaceList)
    (rest : List (Except GoError WorkspaceList))
    (hpre : ∀ p ∈ pre, p.CurrentPage < p.TotalPages)
    (hlast : last.CurrentPage ≥ last.TotalPages)
    (hnames : d.names = [some "*"]) (hexcl : d.exclude_tags = []) :
    ∃ o, dataSourceTFEWorkspaceIDsRead HashString d
        (pre.map Except.ok ++ Except.ok last :: rest) = some o ∧
      o.err = none ∧
      (∀ w ∈ (pre ++ [last]).flatMap WorkspaceList.Items,
        w.Name ≠ "%" → w.Name ≠ "#" →
          w.Name ∈ o.d.ids.keys ∧ w.Name ∈ o.d.full_names.keys) ∧
      o.d.ids.keys.length =
        (((((pre ++ [last]).flatMap WorkspaceList.Items).map Workspace.Name).filter
          (fun k => decide (k ≠ "%" ∧ k ≠ "#"))).dedup).length ∧
      o.d.full_names.keys.length =
        (((((pre ++ [last]).flatMap WorkspaceList.Items).map Workspace.Name).filter
          (fun k => decide (k ≠ "%" ∧ k ≠ "#"))).dedup).length := by
  obtain ⟨o, ho, herr, hfn, hid⟩ :=
    dataSourceTFEWorkspaceIDsRead_complete HashString d pre last rest hpre hlast
  obtain ⟨hkeys, hnodup, hmem, -, -⟩ := workspace_attributes_spec d
    ((pre ++ [last]).flatMap WorkspaceList.Items) o.d.full_names o.d.ids hfn hid
  have hall : ∀ w : Workspace,
      (((workspaceIDsLocals d).hasOnlyTags ||
        ((workspaceIDsLocals d).isWildcard ||
          decide (w.Name ∈ (workspaceIDsLocals d).names))) &&
      !hasExcludedTag (workspaceIDsLocals d).excludeTagLookupMap w) = true := by
    intro w
    rw [workspace_test_iff, hnames, hexcl]
    exact ⟨by simp, Or.inl (by simp)⟩
  have hmem' : ∀ k, k ∈ o.d.ids.keys ↔
      k ∈ (((pre ++ [last]).flatMap WorkspaceList.Items).map Workspace.Name).filter
        (fun k => decide (k ≠ "%" ∧ k ≠ "#")) := by
    intro k
    rw [hmem k, List.mem_filter, List.mem_map, decide_eq_true_eq]
    constructor
    · rintro ⟨hk, w, hw, hn, -⟩
      exact ⟨⟨w, hw, hn⟩, hk⟩
    · rintro ⟨⟨w, hw, hn⟩, hk⟩
      exact ⟨hk, w, hw, hn, hall w⟩
  have hlen : o.d.ids.keys.length =
      (((((pre ++ [last]).flatMap WorkspaceList.Items).map Workspace.Name).filter
        (fun k => decide (k ≠ "%" ∧ k ≠ "#"))).dedup).length := by
    apply List.Perm.length_eq
    rw [List.perm_ext_iff_of_nodup hnodup (List.nodup_dedup _)]
    intro k
    rw [List.mem_dedup]
    exact hmem' k
  refine ⟨o, ho, herr, ?_, hlen, ?_⟩
  · intro w hw h1 h2
    have hk : w.Name ∈ o.d.ids.keys :=
      (hmem _).mpr ⟨⟨h1, h2⟩, w, hw, rfl, hall w⟩
    exact ⟨hk, by rw [hkeys]; exact hk⟩
  · rw [hkeys]
    exact hlen

/-- Witness of C4 (amended): the wildcard configuration on a page of four
workspaces. -/
theorem dataSourceTFEWorkspaceIDsRead_wildcard_witness :
    ∃ o, dataSourceTFEWorkspaceIDsRead (fun _ => 0) wsDataWildcard
        (([] : List WorkspaceList).map Except.ok ++ Except.ok wsPageReserved :: []) = some o ∧
      o.err = none ∧
      (∀ w ∈ ([] ++ [wsPageReserved]).flatMap WorkspaceList.Items,
        w.Name ≠ "%" → w.Name ≠ "#" →
          w.Name ∈ o.d.ids.keys ∧ w.Name ∈ o.d.full_names.keys) ∧
      o.d.ids.keys.length =
        ((((([] ++ [wsPageReserved]).flatMap WorkspaceList.Items).map Workspace.Name).filter
          (fun k => decide (k ≠ "%" ∧ k ≠ "#"))).dedup).length ∧
      o.d.full_names.keys.length =
        ((((([] ++ [wsPageReserved]).flatMap WorkspaceList.Items).map Workspace.Name).filter
          (fun k => decide (k ≠ "%" ∧ k ≠ "#"))).dedup).length :=
  dataSourceTFEWorkspaceIDsRead_wildcard (fun _ => 0) wsDataWildcard [] wsPageReserved []
    (by decide) (by decide) rfl rfl

/-- C6: on a complete sequence of fetched pages the read returns no error,
"ids" and "full_names" have the same keys, and every key `k` is the name of a
fetched workspace whose ID is `ids[k]`, with
`full_names[k] = organization ++ "/" ++ k`. -/
theorem dataSourceTFEWorkspaceIDsRead_parallel (HashString : String → Int)
    (d : WorkspaceIDsData) (pre : List WorkspaceList) (last : WorkspaceList)
    (rest : List (Except GoError WorkspaceList))
    (hpre : ∀ p ∈ pre, p.CurrentPage < p.TotalPages)
    (hlast : last.CurrentPage ≥ last.TotalPages) :
    ∃ o, dataSourceTFEWorkspaceIDsRead HashString d
        (pre.map Except.ok ++ Except.ok last :: rest) = some o ∧
      o.err = none ∧
      (∀ k, k ∈ o.d.ids.keys ↔ k ∈ o.d.full_names.keys) ∧
      (∀ k ∈ o.d.ids.keys,
        (∃ w ∈ (pre ++ [last]).flatMap WorkspaceList.Items,
          w.Name = k ∧ StrMap.get? o.d.ids k = some w.ID) ∧
        StrMap.get? o.d.full_names k = some (d.organization ++ "/" ++ k)) := by
  obtain ⟨o, ho, herr, hfn, hid⟩ :=
    dataSourceTFEWorkspaceIDsRead_complete HashString d pre last rest hpre hlast
  obtain ⟨hkeys, -, -, hids, hfull⟩ := workspace_attributes_spec d
    ((pre ++ [last]).flatMap WorkspaceList.Items) o.d.full_names o.d.ids hfn hid
  refine ⟨o, ho, herr, fun k => by rw [hkeys], ?_⟩
  intro k hk
  constructor
  · obtain ⟨v, hv⟩ := (StrMap.get?_isSome_iff o.d.ids k).mpr hk
    obtain ⟨w, hw, hn, hid', -⟩ := hids k v hv
    exact ⟨w, hw, hn, by rw [hv, hid']⟩
  · obtain ⟨v, hv⟩ := (StrMap.get?_isSome_iff o.d.full_names k).mpr (by rw [hkeys]; exact hk)
    have : v = (workspaceIDsLocals d).organization ++ "/" ++ k := hfull k v hv
    rw [hv, this]
    rfl

/-- Witness of C6: the name "gone" matches no fetched workspace. -/
theorem dataSourceTFEWorkspaceIDsRead_parallel_witness :
    ∃ o, dataSourceTFEWorkspaceIDsRead (fun _ => 0) wsData
        ([wsPage1].map Except.ok ++ Except.ok wsPage2 :: []) = some o ∧
      o.err = none ∧
      (∀ k, k ∈ o.d.ids.keys ↔ k ∈ o.d.full_names.keys) ∧
      (∀ k ∈ o.d.ids.keys,
        (∃ w ∈ ([wsPage1] ++ [wsPage2]).flatMap WorkspaceList.Items,
          w.Name = k ∧ StrMap.get? o.d.ids k = some w.ID) ∧
        StrMap.get? o.d.full_names k = some (wsData.organization ++ "/" ++ k)) :=
  dataSourceTFEWorkspaceIDsRead_parallel (fun _ => 0) wsData [wsPage1] wsPage2 []
    (by decide) (by decide)

/-! ## Properties of the run-queue helper -/

theorem runQueueLoop_more (runID : String) (p : RunQueue)
    (rs : List (Except GoError RunQueue)) (hp : p.CurrentPage < p.TotalPages)
    (hnone : p.Items.find? (fun item => decide (runID = item.ID)) = none)
    (options : ReadRunQueueOptions) (calls : List ReadRunQueueOptions) :
    runQueueLoop runID (Except.ok p :: rs) options calls =
      runQueueLoop runID rs { options with PageNumber := p.NextPage } (calls ++ [options]) := by
  have hp' : ¬ p.CurrentPage ≥ p.TotalPages := by omega
  rw [runQueueLoop]
  simp only [hnone, hp', if_false]

theorem runQueueLoop_found (runID : String) (p : RunQueue) (item : Run)
    (rs : List (Except GoError RunQueue))
    (hsome : p.Items.find? (fun item => decide (runID = item.ID)) = some item)
    (options : ReadRunQueueOptions) (calls : List ReadRunQueueOptions) :
    runQueueLoop runID (Except.ok p :: rs) options calls =
      some ((item.PositionInQueue, none), calls ++ [options]) := by
  rw [runQueueLoop]
  simp only [hsome]

/-- On pages that are not the last one followed by a last page, the loop ends
with no error and the position of the first item that has the run ID, or 0. -/
theorem runQueueLoop_complete (runID : String) (pre : List RunQueue) (last : RunQueue)
    (rest : List (Except GoError RunQueue))
    (hpre : ∀ p ∈ pre, p.CurrentPage < p.TotalPages)
    (hlast : last.CurrentPage ≥ last.TotalPages)
    (options : ReadRunQueueOptions) (calls : List ReadRunQueueOptions) :
    ∃ calls',
      runQueueLoop runID (pre.map Except.ok ++ Except.ok last :: rest) options calls =
        some ((match ((pre ++ [last]).flatMap RunQueue.Items).find?
                  (fun item => decide (runID = item.ID)) with
               | some item => item.PositionInQueue
               | none => 0, none), calls') := by
  induction pre generalizing options calls with
  | nil =>
    refine ⟨calls ++ [options], ?_⟩
    cases hf : last.Items.find? (fun item => decide (runID = item.ID)) with
    | none => simp [runQueueLoop, hf, hlast]
    | some item => simp [runQueueLoop, hf]
  | cons p pre ih =>
    have hp : p.CurrentPage < p.TotalPages := hpre p (List.mem_cons_self _ _)
    cases hf : p.Items.find? (fun item => decide (runID = item.ID)) with
    | none =>
      obtain ⟨calls', h⟩ := ih (fun q hq => hpre q (List.mem_cons_of_mem _ hq))
        { options with PageNumber := p.NextPage } (calls ++ [options])
      refine ⟨calls', ?_⟩
      rw [List.map_cons, List.cons_append, runQueueLoop_more runID p _ hp hf, h]
      simp [List.flatMap_cons, List.find?_append, hf]
    | some item =>
      refine ⟨calls ++ [options], ?_⟩
      rw [List.map_cons, List.cons_append, runQueueLoop_found runID p item _ hf]
      simp [List.flatMap_cons, List.find?_append, hf]

/-- On pages that are not the last one and hold no item with the run ID,
followed by a failed call, the loop ends with an error and position 0. -/
theorem runQueueLoop_error (runID : String) (pre : List RunQueue) (err : GoError)
    (rest : List (Except GoError RunQueue))
    (hpre : ∀ p ∈ pre, p.CurrentPage < p.TotalPages)
    (hnone : ∀ item ∈ pre.flatMap RunQueue.Items, item.ID ≠ runID)
    (options : ReadRunQueueOptions) (calls : List ReadRunQueueOptions) :
    ∃ calls',
      runQueueLoop runID (pre.map Except.ok ++ Except.error err :: rest) options calls =
        some ((0, some (GoError.wrapf "unable to read run queue: " err)), calls') := by
  induction pre generalizing options calls with
  | nil => exact ⟨calls ++ [options], by simp [runQueueLoop]⟩
  | cons p pre ih =>
    have hp : p.CurrentPage < p.TotalPages := hpre p (List.mem_cons_self _ _)
    have hf : p.Items.find? (fun item => decide (runID = item.ID)) = none := by
      rw [List.find?_eq_none]
      intro item hitem
      have := hnone item (by rw [List.flatMap_cons]; exact List.mem_append_left _ hitem)
      simpa using fun h => this h.symm
    obtain ⟨calls', h⟩ := ih (fun q hq => hpre q (List.mem_cons_of_mem _ hq))
      (fun item hitem => hnone item
        (by rw [List.flatMap_cons]; exact List.mem_append_right _ hitem))
      { options with PageNumber := p.NextPage } (calls ++ [options])
    exact ⟨calls', by
      rw [List.map_cons, List.cons_append, runQueueLoop_more runID p _ hp hf, h]⟩

/-- C7: when the run queue is fetched with success, `readRunPositionInOrgQueue`
returns with no error the PositionInQueue of the first item that has the run
ID, and 0 when no item has it; when a call fails before the run was found, it
returns an error and position 0; and on the mocked queues of the test it
returns 1, 0 without error, and 0 with an error. -/
theorem readRunPositionInOrgQueue_position (runID : String) (pre : List RunQueue)
    (hpre : ∀ p ∈ pre, p.CurrentPage < p.TotalPages) :
    (∀ (last : RunQueue) (rest : List (Except GoError RunQueue)),
      last.CurrentPage ≥ last.TotalPages →
      (∀ item, ((pre ++ [last]).flatMap RunQueue.Items).find?
          (fun item => decide (runID = item.ID)) = some item →
        readRunPositionInOrgQueue (pre.map Except.ok ++ Except.ok last :: rest) runID =
          some (item.PositionInQueue, none)) ∧
      ((∀ item ∈ (pre ++ [last]).flatMap RunQueue.Items, item.ID ≠ runID) →
        readRunPositionInOrgQueue (pre.map Except.ok ++ Except.ok last :: rest) runID =
          some (0, none))) ∧
    (∀ (err : GoError) (rest : List (Except GoError RunQueue)),
      (∀ item ∈ pre.flatMap RunQueue.Items, item.ID ≠ runID) →
      ∃ e, readRunPositionInOrgQueue (pre.map Except.ok ++ Except.error err :: rest) runID =
        some (0, some e)) ∧
    (∀ n, readRunPositionInOrgQueue
        (MockRunsQueueForOrg "another-org" "my-org" "my-org" (n + 1)) "run-02" =
          some (1, none)) ∧
    (∀ n, readRunPositionInOrgQueue
        (MockRunsQueueForOrg "another-org" "my-org" "another-org" (n + 1)) "run-02" =
          some (0, none)) ∧
    (∀ n, ∃ e, readRunPositionInOrgQueue
        (MockRunsQueueForOrg "another-org" "my-org" "unknown-org" (n + 1)) "run-02" =
          some (0, some e)) := by
  refine ⟨?_, ?_, ?_, ?_, ?_⟩
  · intro last rest hlast
    obtain ⟨calls, h⟩ := runQueueLoop_complete runID pre last rest hpre hlast
      { PageNumber := 0 } []
    constructor
    · intro item hitem
      rw [readRunPositionInOrgQueue, h, hitem]
      rfl
    · intro hnone
      have hf : ((pre ++ [last]).flatMap RunQueue.Items).find?
          (fun item => decide (runID = item.ID)) = none := by
        rw [List.find?_eq_none]
        intro item hitem
        simpa using fun h => hnone item hitem h.symm
      rw [readRunPositionInOrgQueue, h, hf]
      rfl
  · intro err rest hnone
    obtain ⟨calls, h⟩ := runQueueLoop_error runID pre err rest hpre hnone
      { PageNumber := 0 } []
    exact ⟨_, by rw [readRunPositionInOrgQueue, h]; rfl⟩
  · intro n
    have hq : MockRunsQueueForOrg "another-org" "my-org" "my-org" (n + 1) =
        Except.ok runQueueWithExpectedIDIncluded ::
          List.replicate n (Except.ok runQueueWithExpectedIDIncluded) := by
      rw [MockRunsQueueForOrg, if_pos rfl, List.replicate_succ]
    rw [hq, readRunPositionInOrgQueue,
      runQueueLoop_found "run-02" runQueueWithExpectedIDIncluded
        { ID := "run-02", Status := "pending", PositionInQueue := 1 } _ (by decide)]
    rfl
  · intro n
    have hq : MockRunsQueueForOrg "another-org" "my-org" "another-org" (n + 1) =
        Except.ok runQueueWithExpectedIDNotIncluded ::
          List.replicate n (Except.ok runQueueWithExpectedIDNotIncluded) := by
      rw [MockRunsQueueForOrg, if_neg (by decide), if_pos rfl, List.replicate_succ]
    rw [hq, readRunPositionInOrgQueue, runQueueLoop]
    have hf : runQueueWithExpectedIDNotIncluded.Items.find?
        (fun item => decide ("run-02" = item.ID)) = none := by decide
    have hl : runQueueWithExpectedIDNotIncluded.CurrentPage ≥
        runQueueWithExpectedIDNotIncluded.TotalPages := by decide
    simp only [hf, hl, if_true]
    rfl
  · intro n
    have hq : MockRunsQueueForOrg "another-org" "my-org" "unknown-org" (n + 1) =
        Except.error (GoError.client "invalid value for organization") ::
          List.replicate n (Except.error (GoError.client "invalid value for organization")) := by
      rw [MockRunsQueueForOrg, if_neg (by decide), if_neg (by decide), List.replicate_succ]
    rw [hq, readRunPositionInOrgQueue, runQueueLoop]
    exact ⟨_, rfl⟩

/-- Witness of C7: the run is the second item of a queue of one page. -/
theorem readRunPositionInOrgQueue_position_witness :
    readRunPositionInOrgQueue
        (([] : List RunQueue).map Except.ok ++ Except.ok runQueueWithExpectedIDIncluded :: [])
        "run-02" = some (1, none) :=
  ((readRunPositionInOrgQueue_position "run-02" [] (by decide)).1
    runQueueWithExpectedIDIncluded [] (by decide)).1
    { ID := "run-02", Status := "pending", PositionInQueue := 1 } (by decide)

end tfe
